import Mathlib

/-!
Verification of the Deep Q-Learning core of the urnai-tools repository.

The development shallowly embeds `DeepQLearning` (src/urnai/models/algorithms/dql.py)
and the single-transition update of `DQNWorking` (src/src/models/dql_working.py).

Numeric values handled by numpy are modelled as rationals (`ℚ`); a single-state
backend evaluation `dnn.get_output` is modelled as a function `List ℚ → List ℚ`
from a state vector to an action-value vector, and a batch evaluation as its
row-wise application, following the backend contract (one action-value vector
per input state).  Randomness (`numpy.random.rand`, `random.choice`,
`random.sample`) is modelled by explicit oracle arguments.  Fallible numpy
operations (`argmax` of an empty array, `random.sample` with too few elements)
are modelled with `Option` / explicit error outcomes.
-/

namespace UrnaiDQL

/-- A transition tuple `(state, action, reward, next_state, done)` as stored by
`DeepQLearning.memorize`; `next_state = none` models Python `None` (terminal). -/
structure Transition where
  state : List ℚ
  action : ℕ
  reward : ℚ
  next_state : Option (List ℚ)
  done : Bool
deriving DecidableEq, Repr

/-- Binary maximum on ℚ, written with an explicit comparison so that it
evaluates by kernel reduction; it equals `max` (see `qmax_eq_max`). -/
def qmax (a b : ℚ) : ℚ := if a ≤ b then b else a

/-- Maximum entry of a nonempty vector: `numpy.amax` / `.max()`.
(numpy raises on an empty array; callers guard for nonemptiness.) -/
def amax : List ℚ → ℚ
  | [] => 0
  | [x] => x
  | x :: y :: rest => qmax x (amax (y :: rest))

/-- Index of the first occurrence of the maximum entry: `numpy.argmax`.  (numpy raises on an empty array; callers guard for nonemptiness.) -/
def argmaxIdx : List ℚ → ℕ
  | [] => 0
  | [_] => 0
  | x :: y :: rest => if x < amax (y :: rest) then argmaxIdx (y :: rest) + 1 else 0

/-- Embedding of `DeepQLearning.memorize`: `self.memory.append(t)` on a
`deque(maxlen=memory_maxlen)`.  A `deque` with `maxlen` discards entries from
the opposite (oldest) end when an append would exceed `maxlen`. -/
def memorize (memory_maxlen : ℕ) (memory : List Transition) (t : Transition) :
    List Transition :=
  let m := memory ++ [t]
  if memory_maxlen < m.length then m.drop (m.length - memory_maxlen) else m

/-- The zero vector `numpy.zeros(state_size)` substituted for a `None`
next-state in `memory_learn`. -/
def zeroState (state_size : ℕ) : List ℚ := List.replicate state_size 0

/-- The target row computed for one sampled transition inside the loop of
`DeepQLearning.memory_learn` (lines 149–159): `current_q = numpy.copy(q_s_a[i])`,
then `current_q[action] = reward` when `done`, else
`current_q[action] = reward + gamma * numpy.amax(q_s_a_d[i])`. -/
def targetRow (dnn : List ℚ → List ℚ) (gamma : ℚ) (state_size : ℕ)
    (t : Transition) : List ℚ :=
  let q_s := dnn t.state
  let q_s_next := dnn ((t.next_state).getD (zeroState state_size))
  q_s.set t.action (if t.done then t.reward else t.reward + gamma * amax q_s_next)

/-- The full `target_q_values` array built by `DeepQLearning.memory_learn` for a
sampled batch: one `targetRow` per batch element (every row of the
`numpy.zeros` initialisation is overwritten by the loop). -/
def memory_learn_targets (dnn : List ℚ → List ℚ) (gamma : ℚ) (state_size : ℕ)
    (batch : List Transition) : List (List ℚ) :=
  batch.map (targetRow dnn gamma state_size)

/-- The exclusion loop of `DeepQLearning.predict` (lines 202–212): take
`argmax`; while the index is in `excluded_actions`, `numpy.delete` that entry
and recompute `argmax`.  Result `none` models the `numpy.argmax` crash on an
empty vector.  Each iteration shortens the vector by one, so fuel equal to the
initial length is exact. -/
def predictLoop : ℕ → List ℚ → List ℕ → Option ℕ
  | 0, _, _ => none
  | fuel + 1, q_values, excluded =>
    if q_values.isEmpty then none
    else
      let action_idx := argmaxIdx q_values
      if action_idx ∈ excluded then
        predictLoop fuel (q_values.eraseIdx action_idx) excluded
      else some action_idx

/-- Embedding of `DeepQLearning.predict`: evaluate the backend on the state, then run the
exclusion loop. -/
def predict (dnn : List ℚ → List ℚ) (state : List ℚ) (excluded : List ℕ) :
    Option ℕ :=
  predictLoop (dnn state).length (dnn state) excluded

/-- The resampling loop of `DeepQLearning.choose_action` (lines 192–197):
`random_action = random.choice(self.actions)`, redrawn while it lies in
`excluded_actions`.  The oracle `picks` gives the successive draws of
`random.choice` as indices into `actions` (reduced mod the length, since
`random.choice` always returns a valid element); `k` is the position in the
stream and the fuel bounds the number of iterations examined. -/
def exploreLoop (actions : List ℕ) (excluded : List ℕ) (picks : ℕ → ℕ) :
    ℕ → ℕ → Option ℕ
  | _, 0 => none
  | k, fuel + 1 =>
    if actions.isEmpty then none
    else
      let random_action := actions.getD (picks k % actions.length) 0
      if random_action ∈ excluded then exploreLoop actions excluded picks (k + 1) fuel
      else some random_action

/-- Embedding of `DeepQLearning.choose_action` (lines 187–199).  `u` models the draw
`numpy.random.rand()`, compared with `<=` against `epsilon_greedy`; `picks` and
`fuel` drive the resampling loop of the exploration branch. -/
def choose_action (dnn : List ℚ → List ℚ) (actions : List ℕ) (epsilon_greedy : ℚ)
    (state : List ℚ) (excluded : List ℕ) (is_testing : Bool)
    (u : ℚ) (picks : ℕ → ℕ) (fuel : ℕ) : Option ℕ :=
  if is_testing then predict dnn state excluded
  else if u ≤ epsilon_greedy then exploreLoop actions excluded picks 0 fuel
  else predict dnn state excluded

/-- Modelled from the spec: the body of `LearningModel.decay_epsilon` lives in
the base class `models/base/abmodel.py`, which is not under `src/`; only the
call site (`dql.py` line 126) is.  Spec §4.3, exponential decay (default):
`epsilon_{t+1} = max(epsilon_min, epsilon_t * epsilon_decay)`. -/
def decay_epsilon (epsilon_min epsilon_decay epsilon : ℚ) : ℚ :=
  qmax epsilon_min (epsilon * epsilon_decay)

/-- Epsilon after `n` successive `decay_epsilon` calls starting from
`epsilon_start`. -/
def epsAfter (epsilon_min epsilon_decay epsilon_start : ℚ) : ℕ → ℚ
  | 0 => epsilon_start
  | n + 1 => decay_epsilon epsilon_min epsilon_decay
      (epsAfter epsilon_min epsilon_decay epsilon_start n)

/-- Embedding of `DQNWorking.maxq` (dql_working.py lines 71–77): evaluate, take the entry of
row 0 at the argmax of row 0 (single-state evaluation yields one row, modelled
as the vector `dnn state`). -/
def DQNWorking_maxq (dnn : List ℚ → List ℚ) (state : List ℚ) : ℚ :=
  let values := dnn state
  values.getD (argmaxIdx values) 0

/-- Embedding of `DeepQLearning.__maxq` (dql.py lines 182–185): evaluate and take
`values.max()` over the whole (single-row) output. -/
def maxq (dnn : List ℚ → List ℚ) (state : List ℚ) : ℚ :=
  amax (dnn state)

/-- The target vector built and passed to `dnn.update` by
`DeepQLearning.no_memory_learn` (dql.py lines 164–180): `q_s_a[0, a]` is
overwritten with `r` when `done`, else with `r + gamma * __maxq(s_)`.  `none`
models the crash of `__maxq(None)` when `done` is false but `s_` is `None`. -/
def no_memory_learn_target (dnn : List ℚ → List ℚ) (gamma : ℚ) (s : List ℚ)
    (a : ℕ) (r : ℚ) (s_ : Option (List ℚ)) (done : Bool) : Option (List ℚ) :=
  if done then some ((dnn s).set a r)
  else
    match s_ with
    | none => none
    | some ns => some ((dnn s).set a (r + gamma * maxq dnn ns))

/-- The target vector built and passed to the optimizer by `DQNWorking.learn`
(dql_working.py lines 54–66): `qsa_values[0, np.argmax(a)]` is overwritten with
`r` when `s_ is None`, else with `r + gamma * maxq(s_)`; `a` is the one-hot
action vector. -/
def DQNWorking_learn_target (dnn : List ℚ → List ℚ) (gamma : ℚ) (s : List ℚ)
    (a : List ℚ) (r : ℚ) (s_ : Option (List ℚ)) : List ℚ :=
  let current_q : ℚ :=
    match s_ with
    | none => r
    | some ns => r + gamma * DQNWorking_maxq dnn ns
  (dnn s).set (argmaxIdx a) current_q

/-- Observable state of the Learning Orchestrator: the experience memory, the
exploration epsilon, and the log of backend updates issued (each a pair of the
batch of states and the batch of target rows passed to `dnn.update`; backend
parameters change exactly when this log grows). -/
structure OrchState where
  memory : List Transition
  epsilon : ℚ
  updates : List (List (List ℚ) × List (List ℚ))
deriving DecidableEq, Repr

/-- Outcome of one `memory_learn` call: gate not reached (`storedOnly`), batch
sampled and backend updated (`updated`), or the fatal `random.sample` error
when `batch_size` exceeds the memory length (`samplingError`). -/
inductive MLOutcome
  | storedOnly
  | updated
  | samplingError
deriving DecidableEq, Repr

/-- Embedding of `DeepQLearning.memory_learn` (dql.py lines 128–162) as a transformer of the
orchestrator state.  First `memorize`, then return early while
`len(memory) < min_memory_size`; otherwise `random.sample(memory, batch_size)`,
modelled by the oracle `sampleIdx` (the indices, into the post-store memory, of
the sampled transitions — `random.sample` raises `ValueError` when
`batch_size > len(memory)`), then compute the batch targets and log the
`dnn.update(states, target_q_values)` call. -/
def memory_learn (memory_maxlen min_memory_size batch_size state_size : ℕ)
    (gamma : ℚ) (dnn : List ℚ → List ℚ) (sampleIdx : List ℕ) (st : OrchState)
    (t : Transition) : OrchState × MLOutcome :=
  let mem := memorize memory_maxlen st.memory t
  if mem.length < min_memory_size then
    ({ st with memory := mem }, .storedOnly)
  else if mem.length < batch_size then
    ({ st with memory := mem }, .samplingError)
  else
    let batch := (sampleIdx.take batch_size).map
      (fun i => mem.getD i ⟨[], 0, 0, none, false⟩)
    let states := batch.map Transition.state
    let target_q_values := memory_learn_targets dnn gamma state_size batch
    ({ st with memory := mem, updates := st.updates ++ [(states, target_q_values)] },
      .updated)

/-- Embedding of `DeepQLearning.no_memory_learn` as a transformer of the orchestrator state:
no memory interaction, one backend update with the single-transition target;
`none` models the `__maxq(None)` crash. -/
def no_memory_learn (gamma : ℚ) (dnn : List ℚ → List ℚ) (st : OrchState)
    (t : Transition) : Option OrchState :=
  match no_memory_learn_target dnn gamma t.state t.action t.reward t.next_state t.done with
  | none => none
  | some target =>
    some { st with updates := st.updates ++ [([t.state], [target])] }

/-- Embedding of `DeepQLearning.learn` (dql.py lines 117–126): dispatch on `use_memory`,
then, unless `per_episode_epsilon_decay`, decay epsilon once.  The decay
function is passed in (its body lives in the base class outside `src/`);
`none` models a fatal error in either branch. -/
def learn (use_memory per_episode_epsilon_decay : Bool) (decay : ℚ → ℚ)
    (memory_maxlen min_memory_size batch_size state_size : ℕ) (gamma : ℚ)
    (dnn : List ℚ → List ℚ) (sampleIdx : List ℕ) (st : OrchState)
    (t : Transition) : Option OrchState :=
  let afterUpdate : Option OrchState :=
    if use_memory then
      match memory_learn memory_maxlen min_memory_size batch_size state_size
          gamma dnn sampleIdx st t with
      | (_, MLOutcome.samplingError) => none
      | (st1, _) => some st1
    else
      no_memory_learn gamma dnn st t
  match afterUpdate with
  | none => none
  | some st1 =>
    some { st1 with
      epsilon := if per_episode_epsilon_decay then st1.epsilon else decay st1.epsilon }

/-! ### Helper lemmas -/

theorem qmax_eq_max (a b : ℚ) : qmax a b = max a b := by
  by_cases h : a ≤ b <;> simp [qmax, max_def, h]

theorem argmaxIdx_lt_length (l : List ℚ) (h : l ≠ []) : argmaxIdx l < l.length := by
  induction l with
  | nil => exact absurd rfl h
  | cons x xs ih =>
    cases xs with
    | nil => simp [argmaxIdx]
    | cons y rest =>
      simp only [argmaxIdx]
      split
      · exact Nat.succ_lt_succ (ih (by simp))
      · simp

theorem getD_argmaxIdx (l : List ℚ) (h : l ≠ []) : l.getD (argmaxIdx l) 0 = amax l := by
  induction l with
  | nil => exact absurd rfl h
  | cons x xs ih =>
    cases xs with
    | nil => simp [argmaxIdx, amax]
    | cons y rest =>
      simp only [argmaxIdx, amax, qmax_eq_max]
      split
      · rename_i hlt
        rw [max_eq_right (le_of_lt hlt)]
        simpa using ih (by simp)
      · rename_i hge
        rw [max_eq_left (le_of_not_lt hge)]
        simp

theorem getD_mem_of_lt (l : List ℕ) (i : ℕ) (d : ℕ) (h : i < l.length) :
    l.getD i d ∈ l := by
  rw [List.getD_eq_getElem l d h]
  exact List.getElem_mem h

theorem predictLoop_some_not_mem (fuel : ℕ) :
    ∀ (q : List ℚ) (excluded : List ℕ) (a : ℕ),
      predictLoop fuel q excluded = some a → a ∉ excluded := by
  induction fuel with
  | zero => intro q excluded a h; simp [predictLoop] at h
  | succ n ih =>
    intro q excluded a h
    simp only [predictLoop] at h
    split at h
    · exact absurd h (by simp)
    · split at h
      · exact ih _ _ _ h
      · rename_i hnot
        cases h
        exact hnot

theorem predictLoop_some_lt (fuel : ℕ) :
    ∀ (q : List ℚ) (excluded : List ℕ) (a : ℕ),
      predictLoop fuel q excluded = some a → a < q.length := by
  induction fuel with
  | zero => intro q excluded a h; simp [predictLoop] at h
  | succ n ih =>
    intro q excluded a h
    simp only [predictLoop] at h
    split at h
    · exact absurd h (by simp)
    · rename_i hne
      have hq : q ≠ [] := by simpa [List.isEmpty_iff] using hne
      split at h
      · have := ih _ _ _ h
        have hlen : (q.eraseIdx (argmaxIdx q)).length = q.length - 1 := by
          rw [List.length_eraseIdx]
          simp [argmaxIdx_lt_length q hq]
        omega
      · cases h
        exact argmaxIdx_lt_length q hq

theorem exploreLoop_some (actions excluded : List ℕ) (picks : ℕ → ℕ) (fuel : ℕ) :
    ∀ (k a : ℕ), exploreLoop actions excluded picks k fuel = some a →
      a ∈ actions ∧ a ∉ excluded := by
  induction fuel with
  | zero => intro k a h; simp [exploreLoop] at h
  | succ n ih =>
    intro k a h
    simp only [exploreLoop] at h
    split at h
    · exact absurd h (by simp)
    · rename_i hne
      have hact : actions ≠ [] := by simpa [List.isEmpty_iff] using hne
      split at h
      · exact ih _ _ h
      · rename_i hnot
        cases h
        refine ⟨?_, hnot⟩
        exact getD_mem_of_lt _ _ _
          (Nat.mod_lt _ (List.length_pos_of_ne_nil hact))

theorem exploreLoop_succ (actions excluded : List ℕ) (picks : ℕ → ℕ)
    (k fuel : ℕ) :
    exploreLoop actions excluded picks k (fuel + 1) =
      if actions.isEmpty then none
      else if actions.getD (picks k % actions.length) 0 ∈ excluded then
        exploreLoop actions excluded picks (k + 1) fuel
      else some (actions.getD (picks k % actions.length) 0) := rfl

theorem exploreLoop_reaches (actions excluded : List ℕ) (picks : ℕ → ℕ)
    (hact : actions ≠ []) :
    ∀ (n k : ℕ),
      actions.getD (picks (k + n) % actions.length) 0 ∉ excluded →
      ∃ a, exploreLoop actions excluded picks k (n + 1) = some a := by
  have hne : ¬ (actions.isEmpty = true) := by simpa [List.isEmpty_iff] using hact
  intro n
  induction n with
  | zero =>
    intro k hk
    rw [Nat.add_zero] at hk
    exact ⟨_, by rw [exploreLoop_succ, if_neg hne, if_neg hk]⟩
  | succ m ih =>
    intro k hk
    by_cases hmem : actions.getD (picks k % actions.length) 0 ∈ excluded
    · obtain ⟨a, ha⟩ := ih (k + 1)
        (by rw [(by omega : k + 1 + m = k + (m + 1))]; exact hk)
      exact ⟨a, by rw [exploreLoop_succ, if_neg hne, if_pos hmem]; exact ha⟩
    · exact ⟨_, by rw [exploreLoop_succ, if_neg hne, if_neg hmem]⟩

theorem epsAfter_closed (epsilon_min epsilon_decay epsilon_start : ℚ)
    (hd0 : 0 ≤ epsilon_decay) (hd1 : epsilon_decay ≤ 1)
    (hmin : 0 ≤ epsilon_min) (hstart : epsilon_min ≤ epsilon_start) :
    ∀ n, epsAfter epsilon_min epsilon_decay epsilon_start n
      = max epsilon_min (epsilon_start * epsilon_decay ^ n) := by
  intro n
  induction n with
  | zero => simp [epsAfter, max_eq_right hstart]
  | succ m ih =>
    show decay_epsilon epsilon_min epsilon_decay
        (epsAfter epsilon_min epsilon_decay epsilon_start m) = _
    rw [ih, decay_epsilon, qmax_eq_max, max_mul_of_nonneg _ _ hd0, ← max_assoc,
      max_eq_left (mul_le_of_le_one_right hmin hd1), pow_succ, ← mul_assoc]

/-! ### Claims -/

/-- C5: the Experience Memory always holds at most `memory_maxlen` transitions,
and storing into a full memory evicts exactly the oldest entry (FIFO), leaving
the remaining entries in relative order; storing below capacity is a plain
append.  (The bound is preserved by every Orchestrator operation: `memorize` is
the only operation that writes the memory.) -/
theorem claim_C5 (memory_maxlen : ℕ) (memory : List Transition) (t : Transition)
    (h : memory.length ≤ memory_maxlen) :
    (memorize memory_maxlen memory t).length ≤ memory_maxlen ∧
    (memory.length < memory_maxlen →
      memorize memory_maxlen memory t = memory ++ [t]) ∧
    (memory.length = memory_maxlen → 0 < memory_maxlen →
      memorize memory_maxlen memory t = memory.tail ++ [t]) := by
  refine ⟨?_, ?_, ?_⟩
  · simp only [memorize]
    split
    · rename_i hlt
      rw [List.length_drop]
      simp at hlt ⊢
      omega
    · rename_i hge
      simp at hge ⊢
      omega
  · intro hlt
    simp only [memorize]
    rw [if_neg (by simp; omega)]
  · intro heq hpos
    simp only [memorize]
    rw [if_pos (by simp; omega)]
    have hlen : (memory ++ [t]).length - memory_maxlen = 1 := by simp; omega
    rw [hlen, List.drop_append_of_le_length (by omega), List.drop_one]

/-- Witness for C5 at a concrete input: with `memory_maxlen = 3` and the memory
already holding `T1, T2, T3` (obtained by storing them in order into an empty
memory), storing `T4` leaves exactly `T2, T3, T4`, in that order, and the
length stays within the bound. -/
theorem claim_C5_witness :
    memorize 3 (memorize 3 (memorize 3 (memorize 3 [] ⟨[1], 0, 0, none, false⟩)
        ⟨[2], 0, 0, none, false⟩) ⟨[3], 0, 0, none, false⟩) ⟨[4], 0, 0, none, false⟩
      = [⟨[2], 0, 0, none, false⟩, ⟨[3], 0, 0, none, false⟩, ⟨[4], 0, 0, none, false⟩] ∧
    (memorize 3 [⟨[1], 0, 0, none, false⟩, ⟨[2], 0, 0, none, false⟩,
        ⟨[3], 0, 0, none, false⟩] ⟨[4], 0, 0, none, false⟩).length ≤ 3 := by
  have h := claim_C5 3 [⟨[1], 0, 0, none, false⟩, ⟨[2], 0, 0, none, false⟩,
    ⟨[3], 0, 0, none, false⟩] ⟨[4], 0, 0, none, false⟩ (by decide)
  refine ⟨?_, h.1⟩
  have h3 := h.2.2 (by decide) (by decide)
  rw [show memorize 3 (memorize 3 (memorize 3 [] ⟨[1], 0, 0, none, false⟩)
      ⟨[2], 0, 0, none, false⟩) ⟨[3], 0, 0, none, false⟩
    = [⟨[1], 0, 0, none, false⟩, ⟨[2], 0, 0, none, false⟩, ⟨[3], 0, 0, none, false⟩]
    from by decide]
  rw [h3]
  decide

/-- C6: for every sequence of `decay()` calls starting from `epsilon_start`,
epsilon is non-increasing and never drops below `epsilon_min`; with
`epsilon_start = 1`, `epsilon_min = 1/10`, `epsilon_decay = 9/10`, after 50
decays epsilon equals exactly `1/10`. -/
theorem claim_C6 (epsilon_min epsilon_decay epsilon_start : ℚ)
    (hd0 : 0 ≤ epsilon_decay) (hd1 : epsilon_decay ≤ 1)
    (hmin : 0 ≤ epsilon_min) (hstart : epsilon_min ≤ epsilon_start) :
    (∀ n, epsilon_min ≤ epsAfter epsilon_min epsilon_decay epsilon_start n) ∧
    (∀ n, epsAfter epsilon_min epsilon_decay epsilon_start (n + 1)
      ≤ epsAfter epsilon_min epsilon_decay epsilon_start n) ∧
    epsAfter (1/10) (9/10) 1 50 = 1/10 := by
  have hlb : ∀ n, epsilon_min ≤ epsAfter epsilon_min epsilon_decay epsilon_start n := by
    intro n
    cases n with
    | zero => exact hstart
    | succ m =>
      show epsilon_min ≤ decay_epsilon _ _ _
      rw [decay_epsilon, qmax_eq_max]
      exact le_max_left _ _
  refine ⟨hlb, ?_, ?_⟩
  · intro n
    have h0 : 0 ≤ epsAfter epsilon_min epsilon_decay epsilon_start n :=
      le_trans hmin (hlb n)
    show decay_epsilon _ _ _ ≤ _
    rw [decay_epsilon, qmax_eq_max]
    exact max_le (hlb n) (mul_le_of_le_one_right h0 hd1)
  · rw [epsAfter_closed (1/10) (9/10) 1 (by norm_num) (by norm_num) (by norm_num)
      (by norm_num) 50]
    rw [max_eq_left (by norm_num)]

/-- Witness for C6 at the concrete configuration of the claim:
`epsilon_min = 1/10`, `epsilon_decay = 9/10`, `epsilon_start = 1`. -/
theorem claim_C6_witness :
    (∀ n, (1 : ℚ)/10 ≤ epsAfter (1/10) (9/10) 1 n) ∧
    (∀ n, epsAfter (1/10) (9/10) 1 (n + 1) ≤ epsAfter (1/10) (9/10) 1 n) ∧
    epsAfter (1/10) (9/10) 1 50 = 1/10 :=
  claim_C6 (1/10) (9/10) 1 (by norm_num) (by norm_num) (by norm_num) (by norm_num)

/-- C7: with `is_testing = true`, `choose_action` consults neither the random
draws nor epsilon and is deterministic: its result is the same for arbitrary
random sources and epsilon values, and always equals `predict` (the embedding
is a pure function of the backend, state and exclusion list, so no state is
mutated). -/
theorem claim_C7 (dnn : List ℚ → List ℚ) (actions : List ℕ) (state : List ℚ)
    (excluded : List ℕ) (eps1 eps2 u1 u2 : ℚ) (picks1 picks2 : ℕ → ℕ)
    (fuel1 fuel2 : ℕ) :
    choose_action dnn actions eps1 state excluded true u1 picks1 fuel1
      = choose_action dnn actions eps2 state excluded true u2 picks2 fuel2 ∧
    choose_action dnn actions eps1 state excluded true u1 picks1 fuel1
      = predict dnn state excluded :=
  ⟨rfl, rfl⟩

/-- C1: in `memory_learn`, for every sampled transition the target row equals a
copy of the backend's current output on its state with only the entry at its
action index overwritten — to the reward when `done`, and to
`reward + gamma * max(q_s_next)` otherwise (with the zero-vector substituted
for an absent next state); all other entries are the unmodified current
backend output. -/
theorem claim_C1 (dnn : List ℚ → List ℚ) (gamma : ℚ) (state_size : ℕ)
    (batch : List Transition) (i : ℕ) (t : Transition)
    (ht : batch[i]? = some t)
    (hact : t.action < (dnn t.state).length) :
    (memory_learn_targets dnn gamma state_size batch)[i]?
      = some (targetRow dnn gamma state_size t) ∧
    (targetRow dnn gamma state_size t)[t.action]?
      = some (if t.done then t.reward
          else t.reward + gamma * amax (dnn ((t.next_state).getD (zeroState state_size)))) ∧
    (∀ j, j ≠ t.action →
      (targetRow dnn gamma state_size t)[j]? = (dnn t.state)[j]?) := by
  refine ⟨?_, ?_, ?_⟩
  · rw [memory_learn_targets, List.getElem?_map, ht]
    rfl
  · simp only [targetRow]
    exact List.getElem?_set_eq_of_lt _ hact
  · intro j hj
    simp only [targetRow]
    exact List.getElem?_set_ne (Ne.symm hj)

/-- Witness for C1 at a concrete input: a one-element batch holding a terminal
transition with action 0 and reward 5, with a backend returning `[3, 4]`. -/
theorem claim_C1_witness :
    (memory_learn_targets (fun _ => [(3 : ℚ), 4]) (99/100) 1
        [⟨[1], 0, 5, none, true⟩])[0]?
      = some (targetRow (fun _ => [(3 : ℚ), 4]) (99/100) 1 ⟨[1], 0, 5, none, true⟩) ∧
    (targetRow (fun _ => [(3 : ℚ), 4]) (99/100) 1 ⟨[1], 0, 5, none, true⟩)[(0 : ℕ)]?
      = some (if true then (5 : ℚ)
          else 5 + (99/100) * amax ((fun (_ : List ℚ) => [(3 : ℚ), 4])
            ((none : Option (List ℚ)).getD (zeroState 1)))) ∧
    (∀ j, j ≠ 0 →
      (targetRow (fun _ => [(3 : ℚ), 4]) (99/100) 1 ⟨[1], 0, 5, none, true⟩)[j]?
        = ([(3 : ℚ), 4])[j]?) :=
  claim_C1 (fun _ => [(3 : ℚ), 4]) (99/100) 1 [⟨[1], 0, 5, none, true⟩] 0
    ⟨[1], 0, 5, none, true⟩ rfl (by decide)

/-- C2: whenever `predict` returns an action, that action is not an element of
`excluded_actions` (stated for exclusion sets that do not cover the whole
action-value vector, as in the claim; the loop's exit condition enforces the
conclusion for any exclusion set). -/
theorem claim_C2 (dnn : List ℚ → List ℚ) (state : List ℚ) (excluded : List ℕ)
    (hnonexhaustive : ∃ i, i < (dnn state).length ∧ i ∉ excluded)
    (a : ℕ) (h : predict dnn state excluded = some a) : a ∉ excluded :=
  predictLoop_some_not_mem _ _ _ _ h

/-- Witness for C2 at a concrete input: backend output `[1, 2, 3]`, exclusion
set `{0}`; `predict` returns action 2, which is not excluded. -/
theorem claim_C2_witness :
    predict (fun _ => [(1 : ℚ), 2, 3]) [0] [0] = some 2 ∧ (2 : ℕ) ∉ [0] :=
  ⟨by decide,
    claim_C2 (fun _ => [(1 : ℚ), 2, 3]) [0] [0] ⟨1, by decide, by decide⟩ 2 (by decide)⟩

/-- C3 counterexample: the claim that `choose_action` always returns an element
of the Action Set fails on the exploitation branch, because `predict` returns a
raw q-vector index rather than an entry of `self.actions`.  With action
identifiers `[10, 20]` and backend output `[1, 2]`, `choose_action` under
`is_testing` returns `1`, which is not in the Action Set. -/
theorem claim_C3_counterexample :
    choose_action (fun _ => [(1 : ℚ), 2]) [10, 20] 0 [0] [] true 0 (fun _ => 0) 5
      = some 1 ∧ (1 : ℕ) ∉ [10, 20] := by
  decide

/-- C3 (amended): when the action identifiers are exactly the indices
`0, …, action_size - 1` (`actions = List.range n`) and the backend returns a
vector of length `action_size`, every action returned by `choose_action` — in
the random-exploration branch and in the predict branch, testing or not — is
an element of the Action Set. -/
theorem claim_C3_amended (dnn : List ℚ → List ℚ) (n : ℕ) (actions : List ℕ)
    (epsilon_greedy : ℚ) (state : List ℚ) (excluded : List ℕ) (is_testing : Bool)
    (u : ℚ) (picks : ℕ → ℕ) (fuel : ℕ) (a : ℕ)
    (hacts : actions = List.range n)
    (hq : (dnn state).length = n)
    (h : choose_action dnn actions epsilon_greedy state excluded is_testing u
        picks fuel = some a) :
    a ∈ actions := by
  have hpred : predict dnn state excluded = some a → a ∈ actions := by
    intro hp
    have hp' : predictLoop (dnn state).length (dnn state) excluded = some a := hp
    have hlt := predictLoop_some_lt _ _ _ _ hp'
    rw [hacts]
    exact List.mem_range.mpr (hq ▸ hlt)
  simp only [choose_action] at h
  split at h
  · exact hpred h
  · split at h
    · exact (exploreLoop_some _ _ _ _ _ _ h).1
    · exact hpred h

/-- Witness for the amended C3 at a concrete input: `actions = [0, 1]`,
backend output `[1, 2]`; under `is_testing` the returned action 1 is in the
Action Set. -/
theorem claim_C3_amended_witness :
    (1 : ℕ) ∈ [0, 1] :=
  claim_C3_amended (fun _ => [(1 : ℚ), 2]) 2 [0, 1] 0 [0] [] true 0 (fun _ => 0)
    5 1 (by decide) (by decide) (by decide)

/-- C4 counterexample: the memory-size gate alone does not establish the
sampling precondition.  With `min_memory_size = 1` and `batch_size = 2`,
storing one transition into an empty memory passes the gate
(`len(memory) = 1 ≥ 1`) yet `batch_size = 2 > 1 = len(memory)`, so
`memory_learn` reaches the sampling call and hits the fatal
`random.sample` error. -/
theorem claim_C4_counterexample :
    (memory_learn 5 1 2 1 0 (fun _ => [0]) [] ⟨[], 1, []⟩
        ⟨[0], 0, 0, none, false⟩).2 = MLOutcome.samplingError := by
  decide

/-- C4 (amended): the gate establishes the sampling precondition whenever the
configuration satisfies `batch_size ≤ min_memory_size` (as the defaults
`32 ≤ 2000` do): then, whenever `memory_learn` reaches the sampling call,
`batch_size ≤ len(memory)` and the fatal sampling-error branch is
unreachable. -/
theorem claim_C4_amended (memory_maxlen min_memory_size batch_size state_size : ℕ)
    (gamma : ℚ) (dnn : List ℚ → List ℚ) (sampleIdx : List ℕ) (st : OrchState)
    (t : Transition) (hbs : batch_size ≤ min_memory_size) :
    (memory_learn memory_maxlen min_memory_size batch_size state_size gamma dnn
        sampleIdx st t).2 ≠ MLOutcome.samplingError := by
  simp only [memory_learn]
  split
  · simp
  · split
    · rename_i hmin hbatch
      omega
    · simp

/-- Witness for the amended C4 at a concrete input: `batch_size = 1 ≤ 1 =
min_memory_size` rules the sampling error out. -/
theorem claim_C4_amended_witness :
    (memory_learn 5 1 1 1 0 (fun _ => [0]) [0] ⟨[], 1, []⟩
        ⟨[0], 0, 0, none, false⟩).2 ≠ MLOutcome.samplingError :=
  claim_C4_amended 5 1 1 1 0 (fun _ => [0]) [0] ⟨[], 1, []⟩
    ⟨[0], 0, 0, none, false⟩ (by decide)

/-- C8: the resampling loop of the exploration branch terminates with a
non-excluded action (which is an element of the Action Set) whenever the
stream of `random.choice` draws eventually hits a non-excluded action — which
a uniform random draw over a non-exhaustively-excluded Action Set does with
probability 1. -/
theorem claim_C8 (actions excluded : List ℕ) (picks : ℕ → ℕ)
    (hact : actions ≠ [])
    (hhit : ∃ n, actions.getD (picks n % actions.length) 0 ∉ excluded) :
    ∃ fuel a, exploreLoop actions excluded picks 0 fuel = some a ∧
      a ∈ actions ∧ a ∉ excluded := by
  obtain ⟨n, hn⟩ := hhit
  obtain ⟨a, ha⟩ := exploreLoop_reaches actions excluded picks hact n 0
    (by simpa using hn)
  exact ⟨n + 1, a, ha, exploreLoop_some _ _ _ _ _ _ ha⟩

/-- Witness for C8 at a concrete input: actions `[5, 7]`, exclusion `[5]`, a
draw stream that always picks index 1. -/
theorem claim_C8_witness :
    ∃ fuel a, exploreLoop [5, 7] [5] (fun _ => 1) 0 fuel = some a ∧
      a ∈ [5, 7] ∧ a ∉ [5] :=
  claim_C8 [5, 7] [5] (fun _ => 1) (by decide) ⟨0, by decide⟩

/-- C9: when the Orchestrator is configured with memory and, after storing the
incoming transition, the memory is still below `min_memory_size`, `learn`
issues no backend update: the update log is unchanged, the memory is exactly
the stored-into memory, and the only other mutation is one epsilon decay
(none when `per_episode_epsilon_decay` is set). -/
theorem claim_C9 (per_episode_epsilon_decay : Bool) (decay : ℚ → ℚ)
    (memory_maxlen min_memory_size batch_size state_size : ℕ) (gamma : ℚ)
    (dnn : List ℚ → List ℚ) (sampleIdx : List ℕ) (st : OrchState) (t : Transition)
    (hgate : (memorize memory_maxlen st.memory t).length < min_memory_size) :
    learn true per_episode_epsilon_decay decay memory_maxlen min_memory_size
        batch_size state_size gamma dnn sampleIdx st t
      = some { memory := memorize memory_maxlen st.memory t,
               epsilon := if per_episode_epsilon_decay then st.epsilon
                 else decay st.epsilon,
               updates := st.updates } := by
  simp only [learn, memory_learn, if_pos hgate, if_true]

/-- Witness for C9 at a concrete input: storing one transition into an empty
memory with `min_memory_size = 2` (per-step decay mode, identity decay). -/
theorem claim_C9_witness :
    learn true false (fun e => e) 5 2 1 1 0 (fun _ => [0]) []
        ⟨[], 1, []⟩ ⟨[0], 0, 0, none, false⟩
      = some { memory := memorize 5 [] ⟨[0], 0, 0, none, false⟩,
               epsilon := if false then (1 : ℚ) else (fun e => e) 1,
               updates := [] } :=
  claim_C9 false (fun e => e) 5 2 1 1 0 (fun _ => [0]) [] ⟨[], 1, []⟩
    ⟨[0], 0, 0, none, false⟩ (by decide)

/-- C10: the single-transition update paths of the two implementations agree.
When the backends compute the same evaluation function, the one-hot action
vector's argmax is the integer action index, gamma agrees, and the next state
is `None` exactly when `done` is set, `DeepQLearning.no_memory_learn` computes
the same target vector as `DQNWorking.learn` (and both then issue the backend
update `update(s, target)` with the same state and target). -/
theorem claim_C10 (dnn : List ℚ → List ℚ) (gamma : ℚ) (s : List ℚ)
    (aOneHot : List ℚ) (a : ℕ) (r : ℚ) (s_ : Option (List ℚ)) (done : Bool)
    (hmatch : argmaxIdx aOneHot = a)
    (hdone : s_ = none ↔ done = true)
    (hnonempty : ∀ ns, s_ = some ns → dnn ns ≠ []) :
    no_memory_learn_target dnn gamma s a r s_ done
      = some (DQNWorking_learn_target dnn gamma s aOneHot r s_) := by
  cases done with
  | true =>
    have hs : s_ = none := hdone.mpr rfl
    subst hs
    simp [no_memory_learn_target, DQNWorking_learn_target, hmatch]
  | false =>
    cases hs : s_ with
    | none => simpa using hdone.mp hs
    | some ns =>
      subst hs
      have hmx : (dnn ns).getD (argmaxIdx (dnn ns)) 0 = amax (dnn ns) :=
        getD_argmaxIdx _ (hnonempty ns rfl)
      show some ((dnn s).set a (r + gamma * maxq dnn ns))
        = some ((dnn s).set (argmaxIdx aOneHot) (r + gamma * DQNWorking_maxq dnn ns))
      rw [hmatch,
        show DQNWorking_maxq dnn ns = (dnn ns).getD (argmaxIdx (dnn ns)) 0 from rfl,
        hmx, show maxq dnn ns = amax (dnn ns) from rfl]

/-- Witness for C10 at a concrete input: a terminal transition (`s_ = none`,
`done = true`), one-hot vector `[0, 1]` selecting action 1, reward 5. -/
theorem claim_C10_witness :
    no_memory_learn_target (fun _ => [(3 : ℚ), 4]) (99/100) [1] 1 5 none true
      = some (DQNWorking_learn_target (fun _ => [(3 : ℚ), 4]) (99/100) [1]
          [0, 1] 5 none) :=
  claim_C10 (fun _ => [(3 : ℚ), 4]) (99/100) [1] [0, 1] 1 5 none true
    (by decide) (by simp) (by simp)

end UrnaiDQL
